import Mathlib

/-
Verification of the route35 DNS server (src/main.go) against its
natural-language specification. The Go source is shallowly embedded below:
pure data (records, questions, messages, configuration) become Lean
structures, handlers become functions from a request message (and an
abstract network-exchange oracle) to the response message they write, and
the sequential upstream-fallback loops become structural recursions that
additionally record a trace of the attempts they make, so that ordering
and per-attempt properties can be stated.
-/

set_option autoImplicit false

namespace Route35

/-- Resource-record payload. The source only ever synthesizes A records
(from MustRR templates of the form "name ttl IN A address") and one NS
record; upstream answers are arbitrary records, of which the code only
inspects the owner name (Header().Name), so the payload is otherwise
opaque. -/
inductive RRData where
  | A (address : String)
  | NS (host : String)
  | other
deriving DecidableEq

/-- A DNS resource record: owner name, TTL and payload. Mirrors what the
source reads of dns.RR: the header name and the fields it formats into
MustRR templates. -/
structure RR where
  name : String
  ttl : Int
  data : RRData
deriving DecidableEq

/-- A DNS question (dns.Question). The source only inspects Name. -/
structure Question where
  name : String
  qtype : Nat
  qclass : Nat
deriving DecidableEq

/-- A DNS message (dns.Msg), restricted to the fields the source reads or
writes: header flags, rcode, compression toggle and the four sections.
A freshly allocated new(dns.Msg) is the default value (all flags false,
rcode 0, empty sections), matching the Go zero value. -/
structure Msg where
  id : Nat := 0
  response : Bool := false
  opcode : Nat := 0
  authoritative : Bool := false
  recursionDesired : Bool := false
  recursionAvailable : Bool := false
  checkingDisabled : Bool := false
  rcode : Nat := 0
  compress : Bool := false
  question : List Question := []
  answer : List RR := []
  ns : List RR := []
  extra : List RR := []
deriving DecidableEq

/-- Record contains a single DNS entry (src/main.go, type Record). -/
structure Record where
  Address : String
  TTL : Int
deriving DecidableEq

/-- Transport is either the string "tcp" or "udp" (src/main.go). -/
abbrev Transport := String

/-- Nameserver will respond if we do not know an entry (src/main.go,
type Nameserver). Timeout is a Go time.Duration, i.e. an integer count
of nanoseconds. -/
structure Nameserver where
  Address : String
  Timeout : Int
  Transport : Transport
deriving DecidableEq

/-- Config contains global server configuration (src/main.go, type
Config). The Go map[string]*Record is embedded as an association list
with first-match lookup; a stored entry models a non-nil pointer. -/
structure Config where
  Port : Int
  Name : String
  Secret : String
  Records : List (String × Record)
  Nameservers : List Nameserver
deriving DecidableEq

def OpcodeQuery : Nat := 0

def RcodeSuccess : Nat := 0

def RcodeServerFailure : Nat := 2

/-- Embeds the miekg/dns dependency function Msg.SetReply, which the
source calls in WriteError and RequestHandler. It sets Id, Response and
Opcode from the request, copies the rd and cd bits when the opcode is
QUERY, resets Rcode to success, and — when the request has any question —
sets the Question section to ONLY THE FIRST question of the request. -/
def Msg.setReply (m request : Msg) : Msg :=
  { m with
    id := request.id
    response := true
    opcode := request.opcode
    recursionDesired :=
      if request.opcode = OpcodeQuery then request.recursionDesired
      else m.recursionDesired
    checkingDisabled :=
      if request.opcode = OpcodeQuery then request.checkingDisabled
      else m.checkingDisabled
    rcode := RcodeSuccess
    question :=
      match request.question with
      | [] => m.question
      | q :: _ => [q] }

/-- Embeds the miekg/dns dependency function Msg.SetRcode: SetReply
followed by overwriting the rcode. -/
def Msg.setRcode (m request : Msg) (rcode : Nat) : Msg :=
  { m.setReply request with rcode := rcode }

/-- WriteError puts a server failure message on the response
(src/main.go). Returns the message written to the client. -/
def WriteError (request : Msg) : Msg :=
  let message : Msg := {}
  let message := message.setReply request
  let message := { message with compress := false, recursionAvailable := true }
  message.setRcode request RcodeServerFailure

/-- Outcome of one dns.Client.Exchange call: err == nil (ok), err ==
dns.ErrTruncated with a usable response (truncatedOk), or any other
error (failure). -/
inductive ExchResult where
  | ok (r : Msg)
  | truncatedOk (r : Msg)
  | failure
deriving DecidableEq

/-- The response a handler may use: Exchange results with err == nil or
err == dns.ErrTruncated. An unpacked response message always has its
Compress field false (miekg/dns Unpack never sets it), but nothing below
relies on that; the handlers clear it explicitly as the source does. -/
def ExchResult.usable : ExchResult → Option Msg
  | .ok r => some r
  | .truncatedOk r => some r
  | .failure => none

/-- The network oracle: what one Exchange with a given nameserver, for a
given outgoing message, returns. -/
abbrev Exchange := Nameserver → Msg → ExchResult

/-- Go strings.TrimSuffix: drops the suffix when present, otherwise
returns the string unchanged. Stated over the character list underlying
the Lean string; Go slices bytes, which coincides with characters on the
ASCII hostnames this server deals in. -/
def trimSuffix (s suffix : String) : String :=
  if suffix.data.isSuffixOf s.data then
    ⟨s.data.take (s.data.length - suffix.data.length)⟩
  else s

/-- One attempt made by RecurseHandler: the nameserver tried and the
message handed to Exchange. -/
structure RecurseAttempt where
  ns : Nameserver
  sent : Msg
deriving DecidableEq

/-- The upstream loop of RecurseHandler (src/main.go): for each
nameserver in order, Exchange the WHOLE original request; on the first
ok or truncated result, clear Compress on the upstream response and stop
with it; otherwise log and continue. Returns the list of attempts made
and the response to relay, if any. -/
def recurseGo (exchange : Exchange) (request : Msg) :
    List Nameserver → List RecurseAttempt × Option Msg
  | [] => ([], none)
  | ns :: rest =>
    match (exchange ns request).usable with
    | some r => ([⟨ns, request⟩], some { r with compress := false })
    | none =>
      let t := recurseGo exchange request rest
      (⟨ns, request⟩ :: t.1, t.2)

/-- RecurseHandler creates a handler that will query the next responding
Nameserver (src/main.go). Returns the message written to the client:
the first usable upstream response (with Compress cleared), or the
WriteError server-failure message when every nameserver fails. -/
def Config.RecurseHandler (config : Config) (exchange : Exchange) (request : Msg) : Msg :=
  match (recurseGo exchange request config.Nameservers).2 with
  | some m => m
  | none => WriteError request

/-- The attempts RecurseHandler makes, in the order it makes them. -/
def Config.RecurseAttempts (config : Config) (exchange : Exchange) (request : Msg) :
    List RecurseAttempt :=
  (recurseGo exchange request config.Nameservers).1

/-- UnmarshalJSON parses a transport string (src/main.go,
Transport.UnmarshalJSON). The preliminary json.Unmarshal of the raw
bytes into a Go string is elided: the argument is the decoded string
value. -/
def Transport.unmarshalJSON (s : String) : Except String Transport :=
  if s = "" then .ok ("tcp" : Transport)
  else if s = "tcp" || s = "udp" then .ok (s : Transport)
  else .error ("Illegal value for transport \"" ++ s ++ "\"")

/-- The Go map targets of Config.Resolve, keyed by question name:
insertion overwrites the entry for an existing key and otherwise adds a
new one. Key order is irrelevant to every observable of Resolve. -/
def insertTarget (t : List (String × Question)) (q : Question) :
    List (String × Question) :=
  if t.any (fun p => p.1 == q.name) then
    t.map (fun p => if p.1 == q.name then (q.name, q) else p)
  else t ++ [(q.name, q)]

/-- The initial targets map of Config.Resolve: every input question
inserted in order under its name. -/
def initTargets (questions : List Question) : List (String × Question) :=
  questions.foldl insertTarget []

/-- The delete loop of Config.Resolve: for each answer in the upstream
response, delete the targets entry under the answer owner name. -/
def removeAnswered (t : List (String × Question)) (ans : List RR) :
    List (String × Question) :=
  ans.foldl (fun acc a => acc.filter (fun p => p.1 != a.name)) t

/-- One attempt made by Config.Resolve, with the pending targets map and
accumulated answers before and after it. -/
structure ResolveAttempt where
  ns : Nameserver
  pendingBefore : List (String × Question)
  sent : Msg
  result : ExchResult
  pendingAfter : List (String × Question)
  answersBefore : List RR
  answersAfter : List RR
deriving DecidableEq

/-- The upstream loop of Config.Resolve (src/main.go): iterate the
nameservers in order while targets is non-empty. Each iteration builds
the list unknown of pending questions from targets — WHICH THE SOURCE
NEVER USES — and sends a fresh message whose Question section is set to
the ORIGINAL questions slice (r.Question = questions). On an ok or
truncated Exchange it appends every returned answer to the accumulator
and deletes from targets every entry whose key equals a returned answer
owner name; on any other error it logs and moves on. Returns the
attempt trace and the final answer accumulator. -/
def resolveGo (exchange : Exchange) (questions : List Question) :
    List Nameserver → List (String × Question) → List RR →
    List ResolveAttempt × List RR
  | [], _, answers => ([], answers)
  | ns :: rest, targets, answers =>
    if targets.isEmpty then ([], answers)
    else
      let sent : Msg := { question := questions }
      let res := exchange ns sent
      match res.usable with
      | some r =>
        let targets2 := removeAnswered targets r.answer
        let answers2 := answers ++ r.answer
        let t := resolveGo exchange questions rest targets2 answers2
        (⟨ns, targets, sent, res, targets2, answers, answers2⟩ :: t.1, t.2)
      | none =>
        let t := resolveGo exchange questions rest targets answers
        (⟨ns, targets, sent, res, targets, answers, answers⟩ :: t.1, t.2)

/-- Resolve a list of questions (src/main.go, Config.Resolve). -/
def Config.Resolve (config : Config) (exchange : Exchange)
    (questions : List Question) : List RR :=
  (resolveGo exchange questions config.Nameservers (initTargets questions) []).2

/-- The attempts Config.Resolve makes, in the order it makes them. -/
def Config.ResolveTrace (config : Config) (exchange : Exchange)
    (questions : List Question) : List ResolveAttempt :=
  (resolveGo exchange questions config.Nameservers (initTargets questions) []).1

/-- The per-question lookup of RequestHandler (src/main.go): strip the
suffix "." ++ config.Name from the question name, look the key up in the
record table, and when present synthesize the answer record that
MustRR("name ttl IN A address") builds: owner = the ORIGINAL question
name, TTL and address from the stored Record. -/
def lookupQuestion (config : Config) (q : Question) : Option RR :=
  match List.lookup (trimSuffix q.name ("." ++ config.Name)) config.Records with
  | some record => some { name := q.name, ttl := record.TTL, data := RRData.A record.Address }
  | none => none

/-- The question loop of RequestHandler: split the questions, in order,
into synthesized answers (key present) and the unknown list (key
absent). -/
def splitQuestions (config : Config) : List Question → List RR × List Question
  | [] => ([], [])
  | q :: qs =>
    let t := splitQuestions config qs
    match lookupQuestion config q with
    | some rr => (rr :: t.1, t.2)
    | none => (t.1, q :: t.2)

/-- The authority record MustRR("name 3600 IN NS host.") that
RequestHandler puts in the Ns section: the zone name, TTL 3600, and the
bound host address with a trailing dot. -/
def zoneNSRecord (config : Config) (host : String) : RR :=
  { name := config.Name, ttl := 3600, data := RRData.NS (host ++ ".") }

/-- Everything one run of RequestHandler computes: the locally
synthesized answers, the unresolved questions handed to Config.Resolve,
the records recursion returned, and the response message written. -/
structure HandlerRun where
  synthesized : List RR
  unresolved : List Question
  recursed : List RR
  response : Msg
deriving DecidableEq

/-- RequestHandler returns a function that will look up entries in a
Config (src/main.go). The host argument embeds the package-level Host
variable (the detected interface address). Instrumented to also return
the intermediate lists; the message written to the client is the
response field. -/
def Config.RequestHandlerRun (config : Config) (host : String)
    (exchange : Exchange) (request : Msg) : HandlerRun :=
  let split := splitQuestions config request.question
  let answers0 := split.1
  let unknown := split.2
  let recursed := if unknown.length > 0 then config.Resolve exchange unknown else []
  let answers := answers0 ++ recursed
  let message : Msg := {}
  let message := { message with
    answer := answers
    ns := [zoneNSRecord config host]
    authoritative := true
    recursionAvailable := true }
  let message := message.setReply request
  { synthesized := answers0, unresolved := unknown, recursed := recursed,
    response := message }

/-- The message RequestHandler writes back to the client. -/
def Config.RequestHandler (config : Config) (host : String)
    (exchange : Exchange) (request : Msg) : Msg :=
  (config.RequestHandlerRun host exchange request).response

/-
Helper lemmas.
-/

theorem splitQuestions_eq (config : Config) :
    ∀ qs : List Question,
      splitQuestions config qs
        = (qs.filterMap (lookupQuestion config),
           qs.filter fun q => (lookupQuestion config q).isNone) := by
  intro qs
  induction qs with
  | nil => rfl
  | cons q qs ih =>
    rw [splitQuestions, ih]
    cases h : lookupQuestion config q <;>
      simp [List.filterMap_cons, List.filter_cons, h]

theorem removeAnswered_cons (t : List (String × Question)) (a : RR) (ans : List RR) :
    removeAnswered t (a :: ans)
      = removeAnswered (t.filter fun p => p.1 != a.name) ans := rfl

theorem mem_removeAnswered (ans : List RR) :
    ∀ (t : List (String × Question)) (p : String × Question),
      p ∈ removeAnswered t ans ↔ p ∈ t ∧ ∀ a ∈ ans, a.name ≠ p.1 := by
  induction ans with
  | nil => intro t p; simp [removeAnswered]
  | cons a as ih =>
    intro t p
    rw [removeAnswered_cons, ih]
    simp only [List.mem_filter, bne_iff_ne, ne_eq, List.forall_mem_cons]
    constructor
    · rintro ⟨⟨hp, hne⟩, hall⟩
      exact ⟨hp, fun h => hne h.symm, hall⟩
    · rintro ⟨hp, hne, hall⟩
      exact ⟨⟨hp, fun h => hne h.symm⟩, hall⟩

theorem length_filterMap_of_isSome {α β : Type} (f : α → Option β) :
    ∀ l : List α, (∀ a ∈ l, (f a).isSome) → (l.filterMap f).length = l.length := by
  intro l
  induction l with
  | nil => intro _; rfl
  | cons a as ih =>
    intro h
    obtain ⟨b, hb⟩ := Option.isSome_iff_exists.mp (h a (by simp))
    simp [List.filterMap_cons, hb, ih (fun x hx => h x (by simp [hx]))]

theorem requestHandler_answer_eq (config : Config) (host : String)
    (exchange : Exchange) (request : Msg) :
    (config.RequestHandler host exchange request).answer
      = (splitQuestions config request.question).1
        ++ (if (splitQuestions config request.question).2.length > 0
            then config.Resolve exchange (splitQuestions config request.question).2
            else []) := rfl

theorem requestHandler_ns_eq (config : Config) (host : String)
    (exchange : Exchange) (request : Msg) :
    (config.RequestHandler host exchange request).ns = [zoneNSRecord config host] := rfl

/-
Claim theorems.
-/

/-- C6: for every question handled by RequestHandler, the suffix
"." ++ zone is stripped from the question name to form the lookup key;
a present key contributes exactly one synthesized answer whose owner is
the original question name and whose TTL and address come from the
stored Record, and an absent key puts the question on the unresolved
list, which is exactly what is handed to batch recursion
(Config.Resolve) when non-empty. -/
theorem requestHandler_split_per_question (config : Config) (host : String)
    (exchange : Exchange) (request : Msg) :
    (config.RequestHandlerRun host exchange request).synthesized
      = request.question.filterMap (fun q =>
          match List.lookup (trimSuffix q.name ("." ++ config.Name)) config.Records with
          | some record =>
            some { name := q.name, ttl := record.TTL, data := RRData.A record.Address }
          | none => none) ∧
    (config.RequestHandlerRun host exchange request).unresolved
      = request.question.filter (fun q =>
          (List.lookup (trimSuffix q.name ("." ++ config.Name)) config.Records).isNone) ∧
    (config.RequestHandlerRun host exchange request).recursed
      = (if (config.RequestHandlerRun host exchange request).unresolved.length > 0
         then config.Resolve exchange
                ((config.RequestHandlerRun host exchange request).unresolved)
         else []) := by
  have hsyn : (config.RequestHandlerRun host exchange request).synthesized
      = (splitQuestions config request.question).1 := rfl
  have hunk : (config.RequestHandlerRun host exchange request).unresolved
      = (splitQuestions config request.question).2 := rfl
  refine ⟨?_, ?_, rfl⟩
  · rw [hsyn, splitQuestions_eq]
    rfl
  · rw [hunk, splitQuestions_eq]
    dsimp only
    apply List.filter_congr
    intro q _
    cases h : List.lookup (trimSuffix q.name ("." ++ config.Name)) config.Records <;>
      simp [lookupQuestion, h]

/-- C7: every response RequestHandler assembles has its answer section
equal to the synthesized records followed by the recursively obtained
records, its authority section equal to the single NS record for the
owned zone (zoneNSRecord), the authoritative and recursion-available
flags true, and compression disabled. -/
theorem requestHandler_assembly (config : Config) (host : String)
    (exchange : Exchange) (request : Msg) :
    (config.RequestHandler host exchange request).answer
      = (config.RequestHandlerRun host exchange request).synthesized
        ++ (config.RequestHandlerRun host exchange request).recursed ∧
    (config.RequestHandler host exchange request).ns = [zoneNSRecord config host] ∧
    (config.RequestHandler host exchange request).authoritative = true ∧
    (config.RequestHandler host exchange request).recursionAvailable = true ∧
    (config.RequestHandler host exchange request).compress = false :=
  ⟨rfl, rfl, rfl, rfl, rfl⟩

/-- C10: Transport.unmarshalJSON silently maps the empty string to
"tcp", accepts "tcp" and "udp" unchanged, and rejects every other
string value with a parse error. -/
theorem transport_unmarshal_cases :
    Transport.unmarshalJSON "" = Except.ok ("tcp" : Transport) ∧
    Transport.unmarshalJSON "tcp" = Except.ok ("tcp" : Transport) ∧
    Transport.unmarshalJSON "udp" = Except.ok ("udp" : Transport) ∧
    ∀ s : String, s ≠ "" → s ≠ "tcp" → s ≠ "udp" →
      Transport.unmarshalJSON s
        = Except.error ("Illegal value for transport \"" ++ s ++ "\"") := by
  refine ⟨rfl, rfl, rfl, ?_⟩
  intro s h1 h2 h3
  simp [Transport.unmarshalJSON, h1, h2, h3]

/-- Witness for transport_unmarshal_cases at the concrete rejected
value "tls". -/
theorem transport_unmarshal_cases_witness :
    Transport.unmarshalJSON "tls"
      = Except.error ("Illegal value for transport \"" ++ "tls" ++ "\"") :=
  transport_unmarshal_cases.2.2.2 "tls" (by decide) (by decide) (by decide)

def qC1a : Question := ⟨"a.example.", 1, 1⟩

def qC1b : Question := ⟨"b.example.", 1, 1⟩

def nsC1a : Nameserver := ⟨"1.1.1.1:53", 1000000000, "udp"⟩

def nsC1b : Nameserver := ⟨"2.2.2.2:53", 1000000000, "tcp"⟩

/-- A network in which the first nameserver answers only a.example. and
the second answers nothing. -/
def exchC1 : Exchange := fun ns _ =>
  if ns.Address == "1.1.1.1:53" then
    .ok { response := true, answer := [⟨"a.example.", 60, .A "1.2.3.4"⟩] }
  else
    .ok { response := true, answer := [] }

def cfgC1 : Config := ⟨53, "example.", "", [], [nsC1a, nsC1b]⟩

/-- C1: the source violates this claim. Config.Resolve builds the list
of still-pending questions into the local variable unknown and then
never uses it: the message sent to every attempted nameserver has its
question section set to the ORIGINAL question list (r.Question =
questions in src/main.go). Concretely, after the first nameserver
answers a.example., the second attempt still carries both questions even
though only b.example. is pending. -/
theorem resolve_resends_answered_questions :
    ((cfgC1.ResolveTrace exchC1 [qC1a, qC1b]).map fun a =>
        (a.sent.question, a.pendingBefore.map Prod.snd))
      = [([qC1a, qC1b], [qC1a, qC1b]), ([qC1a, qC1b], [qC1b])] := by decide

theorem recurseGo_all_fail (exchange : Exchange) (request : Msg) :
    ∀ nss : List Nameserver, (∀ m ∈ nss, (exchange m request).usable = none) →
      recurseGo exchange request nss
        = (nss.map fun m => ⟨m, request⟩, none) := by
  intro nss
  induction nss with
  | nil => intro _; rfl
  | cons ns rest ih =>
    intro h
    have hns := h ns (List.mem_cons_self ns rest)
    have hrest := ih fun m hm => h m (List.mem_cons_of_mem ns hm)
    simp only [recurseGo, hns, hrest, List.map_cons]

theorem recurseGo_first_success (exchange : Exchange) (request : Msg)
    (post : List Nameserver) (ns : Nameserver) (r : Msg)
    (hns : (exchange ns request).usable = some r) :
    ∀ pre : List Nameserver, (∀ m ∈ pre, (exchange m request).usable = none) →
      recurseGo exchange request (pre ++ ns :: post)
        = ((pre ++ [ns]).map fun m => ⟨m, request⟩,
           some { r with compress := false }) := by
  intro pre
  induction pre with
  | nil =>
    intro _
    simp only [List.nil_append, recurseGo, hns, List.map_cons, List.map_nil]
  | cons m pre ih =>
    intro h
    have hm := h m (List.mem_cons_self m pre)
    have hpre := ih fun x hx => h x (List.mem_cons_of_mem m hx)
    simp only [List.cons_append, recurseGo, hm, List.append_eq, hpre, List.map_cons]

theorem writeError_fields (request : Msg) :
    (WriteError request).rcode = RcodeServerFailure ∧
    (WriteError request).question = request.question.take 1 ∧
    (WriteError request).compress = false ∧
    (WriteError request).recursionAvailable = true := by
  cases h : request.question with
  | nil => simp [WriteError, Msg.setReply, Msg.setRcode, h]
  | cons q qs => simp [WriteError, Msg.setReply, Msg.setRcode, h]

/-- C4: in pass-through recursion the nameservers are tried strictly in
configured order; every attempt forwards the original request message
itself; and on the first usable (ok or truncated) exchange the upstream
response — whose Compress field an unpacked message always has false,
the hypothesis hcompress — is relayed verbatim and nothing after that
nameserver is attempted. -/
theorem recurseHandler_first_success (config : Config) (exchange : Exchange)
    (request : Msg) (pre post : List Nameserver) (ns : Nameserver) (r : Msg)
    (hlist : config.Nameservers = pre ++ ns :: post)
    (hpre : ∀ m ∈ pre, (exchange m request).usable = none)
    (hns : (exchange ns request).usable = some r)
    (hcompress : r.compress = false) :
    config.RecurseHandler exchange request = r ∧
    config.RecurseAttempts exchange request
      = (pre ++ [ns]).map fun m => ⟨m, request⟩ := by
  have key := recurseGo_first_success exchange request post ns r hns pre hpre
  have hr : ({ r with compress := false } : Msg) = r := by
    cases r
    simp_all
  constructor
  · simp only [Config.RecurseHandler, hlist, key, hr]
  · simp only [Config.RecurseAttempts, hlist, key]

def nsW4a : Nameserver := ⟨"4.4.4.1:53", 1000000000, "udp"⟩

def nsW4b : Nameserver := ⟨"4.4.4.2:53", 1000000000, "tcp"⟩

def rW4 : Msg := { response := true, answer := [⟨"w.other.", 30, .A "9.9.9.9"⟩] }

/-- A network in which the first nameserver fails and the second
responds. -/
def exchW4 : Exchange := fun ns _ =>
  if ns.Address == "4.4.4.2:53" then .ok rW4 else .failure

def cfgW4 : Config := ⟨53, "example.", "", [], [nsW4a, nsW4b]⟩

def reqW4 : Msg := { question := [⟨"w.other.", 1, 1⟩] }

/-- Witness for recurseHandler_first_success: with nameservers [A, B],
A failing and B answering, A is attempted before B, both are sent the
original request, and the client receives exactly the response of B. -/
theorem recurseHandler_first_success_witness :
    cfgW4.RecurseHandler exchW4 reqW4 = rW4 ∧
    cfgW4.RecurseAttempts exchW4 reqW4
      = ([nsW4a] ++ [nsW4b]).map fun m => ⟨m, reqW4⟩ :=
  recurseHandler_first_success cfgW4 exchW4 reqW4 [nsW4a] [] nsW4b rW4
    (by decide) (by decide) (by decide) (by decide)

def qC5a : Question := ⟨"z.other.", 1, 1⟩

def qC5b : Question := ⟨"y.other.", 1, 1⟩

def exchC5 : Exchange := fun _ _ => .failure

def cfgC5 : Config := ⟨53, "example.", "", [], []⟩

def reqC5 : Msg := { question := [qC5a, qC5b] }

/-- C5 counterexample: with an empty nameserver list and a two-question
pass-through query, the synthesized server-failure response does NOT
echo the original question section: the dependency function SetReply
copies only the FIRST question of the request, so the second question is
dropped. -/
theorem recurse_failure_drops_second_question :
    (cfgC5.RecurseHandler exchC5 reqC5).rcode = RcodeServerFailure ∧
    (cfgC5.RecurseHandler exchC5 reqC5).question ≠ reqC5.question ∧
    (cfgC5.RecurseHandler exchC5 reqC5).question = [qC5a] ∧
    reqC5.question = [qC5a, qC5b] := by decide

/-- C5 (amended): when every configured nameserver fails — including the
empty-list case, where no upstream is attempted — the client receives
the WriteError message: server-failure rcode, the FIRST question of the
original query echoed (the whole question section whenever the query has
at most one question), compression disabled and recursion-available
set. -/
theorem recurseHandler_total_failure (config : Config) (exchange : Exchange)
    (request : Msg)
    (hfail : ∀ m ∈ config.Nameservers, (exchange m request).usable = none) :
    config.RecurseHandler exchange request = WriteError request ∧
    (config.RecurseHandler exchange request).rcode = RcodeServerFailure ∧
    (config.RecurseHandler exchange request).question = request.question.take 1 ∧
    (config.RecurseHandler exchange request).compress = false ∧
    (config.RecurseHandler exchange request).recursionAvailable = true := by
  have h2 : config.RecurseHandler exchange request = WriteError request := by
    simp only [Config.RecurseHandler,
      recurseGo_all_fail exchange request config.Nameservers hfail]
  have h3 := writeError_fields request
  rw [h2]
  exact ⟨rfl, h3.1, h3.2.1, h3.2.2.1, h3.2.2.2⟩

def exchW5 : Exchange := fun _ _ => .failure

def cfgW5 : Config := ⟨53, "example.", "", [], [⟨"5.5.5.5:53", 1000000000, "udp"⟩]⟩

def reqW5 : Msg := { question := [⟨"q.other.", 1, 1⟩] }

/-- Witness for recurseHandler_total_failure with one failing
nameserver and a single-question query. -/
theorem recurseHandler_total_failure_witness :
    cfgW5.RecurseHandler exchW5 reqW5 = WriteError reqW5 ∧
    (cfgW5.RecurseHandler exchW5 reqW5).rcode = RcodeServerFailure ∧
    (cfgW5.RecurseHandler exchW5 reqW5).question = reqW5.question.take 1 ∧
    (cfgW5.RecurseHandler exchW5 reqW5).compress = false ∧
    (cfgW5.RecurseHandler exchW5 reqW5).recursionAvailable = true :=
  recurseHandler_total_failure cfgW5 exchW5 reqW5 (by decide)

theorem resolveGo_attempt (exchange : Exchange) (questions : List Question) :
    ∀ (nss : List Nameserver) (targets : List (String × Question))
      (answers : List RR) (a : ResolveAttempt),
      a ∈ (resolveGo exchange questions nss targets answers).1 →
      (∀ r : Msg, a.result.usable = some r →
        a.answersAfter = a.answersBefore ++ r.answer ∧
        ∀ p : String × Question,
          (p ∈ a.pendingAfter ↔
            p ∈ a.pendingBefore ∧ ∀ ans ∈ r.answer, ans.name ≠ p.1)) ∧
      (a.result.usable = none →
        a.answersAfter = a.answersBefore ∧ a.pendingAfter = a.pendingBefore) := by
  intro nss
  induction nss with
  | nil => intro targets answers a ha; simp [resolveGo] at ha
  | cons ns rest ih =>
    intro targets answers a ha
    by_cases hemp : targets.isEmpty = true
    · simp [resolveGo, hemp] at ha
    · simp only [resolveGo] at ha
      rw [if_neg hemp] at ha
      cases hex : (exchange ns { question := questions }).usable with
      | some r =>
        rw [hex] at ha
        simp only [List.mem_cons] at ha
        rcases ha with rfl | hmem
        · constructor
          · intro r2 hr2
            simp only [hex, Option.some.injEq] at hr2
            subst hr2
            exact ⟨rfl, mem_removeAnswered r.answer targets⟩
          · intro hnone
            rw [hex] at hnone
            exact absurd hnone (by simp)
        · exact ih _ _ a hmem
      | none =>
        rw [hex] at ha
        simp only [List.mem_cons] at ha
        rcases ha with rfl | hmem
        · constructor
          · intro r2 hr2
            rw [hex] at hr2
            exact absurd hr2 (by simp)
          · intro _
            exact ⟨rfl, rfl⟩
        · exact ih _ _ a hmem

/-- C3: for every attempt Config.Resolve makes, a usable (ok or
truncated) exchange appends the whole upstream answer section, in
order and regardless of whether the answered names are pending, to the
answer accumulator, and removes from the pending targets exactly the
entries whose key equals some returned answer owner name; any other
error leaves both the accumulator and the pending targets untouched
(and, per the trace, iteration then moves to the next nameserver). -/
theorem resolve_attempt_update (config : Config) (exchange : Exchange)
    (questions : List Question) (a : ResolveAttempt)
    (ha : a ∈ config.ResolveTrace exchange questions) :
    (∀ r : Msg, a.result.usable = some r →
      a.answersAfter = a.answersBefore ++ r.answer ∧
      ∀ p : String × Question,
        (p ∈ a.pendingAfter ↔
          p ∈ a.pendingBefore ∧ ∀ ans ∈ r.answer, ans.name ≠ p.1)) ∧
    (a.result.usable = none →
      a.answersAfter = a.answersBefore ∧ a.pendingAfter = a.pendingBefore) :=
  resolveGo_attempt exchange questions config.Nameservers
    (initTargets questions) [] a ha

def qC3 : Question := ⟨"c.example.", 1, 1⟩

def nsC3 : Nameserver := ⟨"3.3.3.3:53", 5000000000, "udp"⟩

def msgC3 : Msg := { response := true, answer := [⟨"c.example.", 60, .A "5.6.7.8"⟩] }

def exchC3 : Exchange := fun _ _ => .ok msgC3

def cfgC3 : Config := ⟨53, "example.", "", [], [nsC3]⟩

/-- The single attempt Config.Resolve makes for cfgC3 on question qC3. -/
def attC3 : ResolveAttempt :=
  ⟨nsC3, [("c.example.", qC3)], { question := [qC3] }, .ok msgC3,
   [], [], [⟨"c.example.", 60, .A "5.6.7.8"⟩]⟩

/-- Witness for resolve_attempt_update at a concrete one-nameserver
trace. -/
theorem resolve_attempt_update_witness :
    (∀ r : Msg, attC3.result.usable = some r →
      attC3.answersAfter = attC3.answersBefore ++ r.answer ∧
      ∀ p : String × Question,
        (p ∈ attC3.pendingAfter ↔
          p ∈ attC3.pendingBefore ∧ ∀ ans ∈ r.answer, ans.name ≠ p.1)) ∧
    (attC3.result.usable = none →
      attC3.answersAfter = attC3.answersBefore ∧
      attC3.pendingAfter = attC3.pendingBefore) :=
  resolve_attempt_update cfgC3 exchC3 [qC3] attC3 (by decide)

def qC2 : Question := ⟨"www.example.", 1, 1⟩

def nsC2 : Nameserver := ⟨"8.8.8.8:53", 2000000000, "udp"⟩

/-- A network whose only nameserver returns two A records for the same
owner name. -/
def exchC2 : Exchange := fun _ _ =>
  .ok { response := true,
        answer := [⟨"www.example.", 60, .A "10.1.1.1"⟩,
                   ⟨"www.example.", 60, .A "10.1.1.2"⟩] }

def cfgC2 : Config := ⟨53, "example.", "", [], [nsC2]⟩

def reqC2 : Msg := { question := [qC2] }

/-- C2 counterexample: an owned-zone query with one question whose key
is absent from the record table goes to recursion; the upstream returns
two answer records for it and RequestHandler appends both, so the
response carries two answer records for a single input question,
refuting the at-most-one-answer-per-question invariant. -/
theorem requestHandler_two_answers_for_one_question :
    reqC2.question.length = 1 ∧
    (cfgC2.RequestHandler "10.0.0.1" exchC2 reqC2).answer.length = 2 := by decide

/-- C2 (amended): EVERY response RequestHandler produces — recursion
cases included — carries the authority-section record identifying the
zone nameserver (the first, unconditional conjunct); and a query all of
whose questions are found in the Record Store receives exactly one
synthesized answer per question; when some question goes to recursion,
the response may carry any number of upstream answer records per
question (they are appended unfiltered). -/
theorem requestHandler_local_cardinality (config : Config) (host : String)
    (exchange : Exchange) (request : Msg) :
    (config.RequestHandler host exchange request).ns = [zoneNSRecord config host] ∧
    ((∀ q ∈ request.question, (lookupQuestion config q).isSome) →
      (config.RequestHandler host exchange request).answer
        = request.question.filterMap (lookupQuestion config) ∧
      (config.RequestHandler host exchange request).answer.length
        = request.question.length) := by
  refine ⟨requestHandler_ns_eq config host exchange request, ?_⟩
  intro hlocal
  have hfil : (request.question.filter fun q => (lookupQuestion config q).isNone) = [] := by
    rw [List.filter_eq_nil_iff]
    intro q hq
    have h := hlocal q hq
    cases hopt : lookupQuestion config q <;> simp_all
  have hans : (config.RequestHandler host exchange request).answer
      = request.question.filterMap (lookupQuestion config) := by
    rw [requestHandler_answer_eq, splitQuestions_eq]
    dsimp only
    rw [hfil]
    simp
  refine ⟨hans, ?_⟩
  rw [hans]
  exact length_filterMap_of_isSome (lookupQuestion config) request.question hlocal

def cfgW2 : Config := ⟨53, "example.com.", "", [("www", ⟨"10.0.0.1", 300⟩)], []⟩

def reqW2 : Msg := { question := [⟨"www.example.com.", 1, 1⟩] }

def exchW2 : Exchange := fun _ _ => .failure

/-- Witness for requestHandler_local_cardinality: one stored record,
one matching question; the local-resolvability hypothesis of the
cardinality conjunct is discharged concretely. -/
theorem requestHandler_local_cardinality_witness :
    (cfgW2.RequestHandler "10.0.0.9" exchW2 reqW2).ns
      = [zoneNSRecord cfgW2 "10.0.0.9"] ∧
    (cfgW2.RequestHandler "10.0.0.9" exchW2 reqW2).answer
      = reqW2.question.filterMap (lookupQuestion cfgW2) ∧
    (cfgW2.RequestHandler "10.0.0.9" exchW2 reqW2).answer.length
      = reqW2.question.length :=
  ⟨(requestHandler_local_cardinality cfgW2 "10.0.0.9" exchW2 reqW2).1,
   (requestHandler_local_cardinality cfgW2 "10.0.0.9" exchW2 reqW2).2 (by decide)⟩

end Route35
